import Mathlib

/-!
Shallow embedding of the PlayWithBilibili plugin core (`playwithbilio.js`,
plus the earlier revision shipped alongside it) and proofs about its
candidate search-and-ranking pipeline, search cache and playback
synchronisation handlers.

Strings are modelled as Lean `String`s and all character-level work happens
on `String.data` (`List Char`) with structurally recursive functions, so
concrete runs reduce inside the kernel.  JavaScript numbers are modelled as
`Int` (millisecond/second counts) and `ℚ` (similarity scores, playback
clocks); `NaN` produced by `parseInt` on a digit-free segment is modelled as
`Option.none`.  Rational arithmetic inside executable definitions is
performed through `mkRat`-based helpers (`ratAvg`, `ratSub`, `ratAbs`) that
are proved equal to the ordinary field operations, because the kernel cannot
unfold `Rat.add`/`Rat.mul` directly.
-/

namespace PWB

/-! ## JavaScript string primitives -/

/-- Characters treated as whitespace by JavaScript `\s`, `trim` and
`String.prototype.trim` (WhiteSpace ∪ LineTerminator). -/
def jsIsSpace (c : Char) : Bool :=
  c.val = 9 || c.val = 10 || c.val = 11 || c.val = 12 || c.val = 13 ||
  c.val = 32 || c.val = 160 || c.val = 5760 ||
  (8192 ≤ c.val && c.val ≤ 8202) ||
  c.val = 8232 || c.val = 8233 || c.val = 8239 || c.val = 8287 ||
  c.val = 12288 || c.val = 65279

/-- JavaScript line terminators, which `.` in a regular expression never
matches. -/
def jsIsLineTerm (c : Char) : Bool :=
  c.val = 10 || c.val = 13 || c.val = 8232 || c.val = 8233

/-- `String.prototype.trim` on the character list. -/
def trimChars (cs : List Char) : List Char :=
  ((cs.dropWhile jsIsSpace).reverse.dropWhile jsIsSpace).reverse

/-- `String.prototype.trim`. -/
def jsTrim (s : String) : String := ⟨trimChars s.data⟩

/-- Replace every maximal run of characters satisfying `p` by a single
space: the global regex replacement `/[p]+/g → ' '`.  The `Bool` flag
records whether the previous character belonged to a run. -/
def collapseRunsAux (p : Char → Bool) : Bool → List Char → List Char
  | _, [] => []
  | inRun, c :: cs =>
    if p c then
      if inRun then collapseRunsAux p true cs
      else ' ' :: collapseRunsAux p true cs
    else c :: collapseRunsAux p false cs

/-- Global replacement of runs of `p`-characters by one space. -/
def collapseRuns (p : Char → Bool) (cs : List Char) : List Char :=
  collapseRunsAux p false cs

/-- The separator class `[\s\-\|\/]` used by `calculateSimilarity`. -/
def jsIsSep (c : Char) : Bool :=
  jsIsSpace c || c = '-' || c = '|' || c = '/'

/-- `String.prototype.split(sep)` for a single-character separator. -/
def splitOnChar (sep : Char) : List Char → List (List Char)
  | [] => [[]]
  | c :: cs =>
    match splitOnChar sep cs with
    | [] => [[]]
    | g :: gs => if c = sep then [] :: g :: gs else (c :: g) :: gs

/-- Does `pre` occur at the start of `l`? (`String.prototype.startsWith`.) -/
def leadsWith : List Char → List Char → Bool
  | [], _ => true
  | _ :: _, [] => false
  | a :: as, b :: bs => a = b && leadsWith as bs

/-- `String.prototype.includes` on character lists. -/
def hasSubstr : List Char → List Char → Bool
  | [], needle => needle.isEmpty
  | c :: cs, needle => leadsWith needle (c :: cs) || hasSubstr cs needle

/-- `String.prototype.includes`. -/
def containsStr (s sub : String) : Bool := hasSubstr s.data sub.data

/-- First-occurrence `String.prototype.replace` with a *string* pattern on
character lists.  JavaScript replaces only the first occurrence; an empty
pattern matches at position 0. -/
def replaceFirstL : List Char → List Char → List Char → List Char
  | [], needle, repl => if needle.isEmpty then repl else []
  | c :: cs, needle, repl =>
    if leadsWith needle (c :: cs) then repl ++ (c :: cs).drop needle.length
    else c :: replaceFirstL cs needle repl

/-- First-occurrence `String.prototype.replace` with a string pattern. -/
def replaceFirst (s pat repl : String) : String :=
  ⟨replaceFirstL s.data pat.data repl.data⟩

/-- ASCII lower-casing of a string (`String.prototype.toLowerCase`
restricted to the Basic Latin fragment; CJK characters are unchanged under
both). -/
def lowerStr (s : String) : String := ⟨s.data.map Char.toLower⟩

/-- Decimal digit test. -/
def isDigitChar (c : Char) : Bool := '0' ≤ c && c ≤ '9'

/-- Hexadecimal digit test (both cases), as accepted by `parseInt` after a
`0x` prefix. -/
def isHexChar (c : Char) : Bool :=
  isDigitChar c || ('a' ≤ c && c ≤ 'f') || ('A' ≤ c && c ≤ 'F')

/-- Numeric value of a (hexa)decimal digit character. -/
def digitVal (c : Char) : Nat :=
  if isDigitChar c then c.toNat - 48
  else if 'a' ≤ c && c ≤ 'f' then c.toNat - 87
  else c.toNat - 55

/-- Fold the longest digit run at the head of `cs` in base `base`;
`none` when there is no digit at all (`parseInt` returns `NaN`). -/
def parseDigits (digitOk : Char → Bool) (base : Nat) (cs : List Char) :
    Option Nat :=
  match cs.takeWhile digitOk with
  | [] => none
  | ds => some (ds.foldl (fun a c => a * base + digitVal c) 0)

/-- `parseInt(s)` with no explicit radix: skip leading whitespace, optional
sign, optional `0x`/`0X` hexadecimal prefix, then the longest digit run;
`none` models `NaN`. -/
def jsParseInt (s : String) : Option Int :=
  match s.data.dropWhile jsIsSpace with
  | '-' :: rest => (jsParseIntBody rest).map (fun n => -(n : Int))
  | '+' :: rest => (jsParseIntBody rest).map (fun n => (n : Int))
  | rest => (jsParseIntBody rest).map (fun n => (n : Int))
where
  jsParseIntBody : List Char → Option Nat
    | '0' :: 'x' :: rest => parseDigits isHexChar 16 rest
    | '0' :: 'X' :: rest => parseDigits isHexChar 16 rest
    | rest => parseDigits isDigitChar 10 rest

/-- `parseInt(seg || 0)`: the empty string is falsy, so it is replaced by
the number `0` before parsing. -/
def jsParseIntOrZero (s : String) : Option Int :=
  if s = "" then some 0 else jsParseInt s

/-! ## Longest common subsequence -/

/-- Fuelled longest-common-subsequence length.  One unit of fuel is spent
per step; `lcsLen` supplies fuel `s.length + t.length`, which always
suffices because every recursive call shortens the combined input.  The
recurrence is exactly the one tabulated by the `dp` array of
`calculateBaseSimilarity`. -/
def lcsF : Nat → List Char → List Char → Nat
  | 0, _, _ => 0
  | _ + 1, [], _ => 0
  | _ + 1, _ :: _, [] => 0
  | f + 1, a :: as, b :: bs =>
    if a = b then lcsF f as bs + 1
    else max (lcsF f (a :: as) bs) (lcsF f as (b :: bs))

/-- Longest-common-subsequence length of two character lists. -/
def lcsLen (s t : List Char) : Nat := lcsF (s.length + t.length) s t

/-! ## Kernel-reducible rational helpers

The kernel cannot unfold `Rat.add`, `Rat.sub`, `Rat.mul` or `Rat.div`
(they are irreducible), so the executable definitions below use `mkRat` on
explicit numerators and denominators.  Each helper is proved equal to the
corresponding field operation in the theorem section. -/

/-- `(x + y) / 2` computed on raw numerators/denominators. -/
def ratAvg (x y : ℚ) : ℚ :=
  mkRat (x.num * (y.den : Int) + y.num * (x.den : Int)) (2 * (x.den * y.den))

/-- `x - y` computed on raw numerators/denominators. -/
def ratSub (x y : ℚ) : ℚ :=
  mkRat (x.num * (y.den : Int) - y.num * (x.den : Int)) (x.den * y.den)

/-- `|x|` computed on raw numerators/denominators. -/
def ratAbs (x : ℚ) : ℚ := mkRat (x.num.natAbs : Int) x.den

/-! ## Regex scanners

The plugin uses three global regex replacements whose alternatives are
plain literals (or bracket pairs with a non-greedy body).  A global
replacement scans left to right, tries the alternatives in order at each
position, removes a match and resumes after it, or keeps the character and
moves one position on.  Fuel (one unit per consumed character, so the input
length always suffices) keeps the definitions structurally recursive. -/

/-- Scan for the first closing bracket `close`, returning the suffix after
it; `.` in a regex does not cross a line terminator, so the search fails
(`none`) if one is hit first. -/
def afterCloser (close : Char) : List Char → Option (List Char)
  | [] => none
  | c :: cs =>
    if c = close then some cs
    else if jsIsLineTerm c then none
    else afterCloser close cs

/-- Generic bracket-annotation stripper: remove every `open…close` group
(non-greedy body) for the bracket pairs in `pairs`.  The alternatives of
the source regexes all start with distinct opening brackets, so trying the
pairs in list order is exactly the regex's alternation. -/
def stripPairsF (pairs : List (Char × Char)) : Nat → List Char → List Char
  | 0, cs => cs
  | _ + 1, [] => []
  | fuel + 1, c :: cs =>
    match pairs.find? (fun p => p.1 = c) with
    | some p =>
      match afterCloser p.2 cs with
      | some rest => stripPairsF pairs fuel rest
      | none => c :: stripPairsF pairs fuel cs
    | none => c :: stripPairsF pairs fuel cs

/-- Generic bracket stripper with enough fuel for the whole input. -/
def stripPairs (pairs : List (Char × Char)) (cs : List Char) : List Char :=
  stripPairsF pairs cs.length cs

/-- The six bracket pairs of `cleanSongName`'s regex
`/【.*?】|\[.*?\]|\{.*?\}|\(.*?\)|「.*?」|『.*?』/g`. -/
def songNamePairs : List (Char × Char) :=
  [('【', '】'), ('[', ']'), ('{', '}'), ('(', ')'), ('「', '」'), ('『', '』')]

/-- The five bracket pairs of `calculateSimilarity`'s regex
`/【.*?】|\[.*?\]|\(.*?\)|「.*?」|『.*?』/g` (no curly braces). -/
def simPairs : List (Char × Char) :=
  [('【', '】'), ('[', ']'), ('(', ')'), ('「', '」'), ('『', '』')]

/-- Hard-coded scanner for `cleanSongName`'s bracket regex (alternation
written out literally, mirroring the source regex). -/
def stripSongNameBracketsF : Nat → List Char → List Char
  | 0, cs => cs
  | _ + 1, [] => []
  | fuel + 1, c :: cs =>
    if c = '【' then
      match afterCloser '】' cs with
      | some rest => stripSongNameBracketsF fuel rest
      | none => c :: stripSongNameBracketsF fuel cs
    else if c = '[' then
      match afterCloser ']' cs with
      | some rest => stripSongNameBracketsF fuel rest
      | none => c :: stripSongNameBracketsF fuel cs
    else if c = '{' then
      match afterCloser '}' cs with
      | some rest => stripSongNameBracketsF fuel rest
      | none => c :: stripSongNameBracketsF fuel cs
    else if c = '(' then
      match afterCloser ')' cs with
      | some rest => stripSongNameBracketsF fuel rest
      | none => c :: stripSongNameBracketsF fuel cs
    else if c = '「' then
      match afterCloser '」' cs with
      | some rest => stripSongNameBracketsF fuel rest
      | none => c :: stripSongNameBracketsF fuel cs
    else if c = '『' then
      match afterCloser '』' cs with
      | some rest => stripSongNameBracketsF fuel rest
      | none => c :: stripSongNameBracketsF fuel cs
    else c :: stripSongNameBracketsF fuel cs

/-- Case-insensitive `leadsWith` against an already-lower-cased token. -/
def leadsWithCI : List Char → List Char → Bool
  | [], _ => true
  | _ :: _, [] => false
  | a :: as, b :: bs => a = b.toLower && leadsWithCI as bs

/-- Marketing-token alternatives of
`/官方投稿|official|mv|pv|feat\.?|ft\.?/gi`, in alternation order; the `?`
quantifier is greedy, so `feat\.?` behaves as `feat.` then `feat`, and
`ft\.?` as `ft.` then `ft`. -/
def marketingTokens : List (List Char) :=
  ["官方投稿".data, "official".data, "mv".data, "pv".data,
   "feat.".data, "feat".data, "ft.".data, "ft".data]

/-- Global case-insensitive removal of the marketing tokens.  Every token
is non-empty, so removing a match consumes at least one character and the
input length is enough fuel. -/
def stripMarketingF : Nat → List Char → List Char
  | 0, cs => cs
  | _ + 1, [] => []
  | fuel + 1, c :: cs =>
    match marketingTokens.find? (fun t => leadsWithCI t (c :: cs)) with
    | some t => stripMarketingF fuel ((c :: cs).drop t.length)
    | none => c :: stripMarketingF fuel cs

/-- The two literal alternatives of the highlight-markup regex
`/<em class="keyword">|<\/em>/g` used by `parseSearchResults`. -/
def emTags : List (List Char) :=
  ["<em class=\"keyword\">".data, "</em>".data]

/-- Global case-sensitive removal of the `<em>` highlight tags. -/
def stripEmTagsF : Nat → List Char → List Char
  | 0, cs => cs
  | _ + 1, [] => []
  | fuel + 1, c :: cs =>
    match emTags.find? (fun t => leadsWith t (c :: cs)) with
    | some t => stripEmTagsF fuel ((c :: cs).drop t.length)
    | none => c :: stripEmTagsF fuel cs

/-- `video.title.replace(/<em class="keyword">|<\/em>/g, '')`. -/
def stripEmTags (s : String) : String := ⟨stripEmTagsF s.data.length s.data⟩

/-! ## Data model -/

/-- One untrusted entry of `jsonData.data.result`; every field may be
absent. -/
structure RawVideo where
  title : Option String
  bvid : Option String
  duration : Option String
  play : Option Int
  author : Option String
  arcurl : Option String
deriving DecidableEq

/-- The normalised video object produced by `parseSearchResults`. -/
structure Video where
  title : String
  bvid : String
  duration : String
  playCount : Int
  author : String
  arcurl : String
deriving DecidableEq

/-- The configuration fields consulted by the search pipeline
(`search-kwd`, `filter-length`, `filter-play`). -/
structure Config where
  searchKwd : String
  filterLength : Bool
  filterPlay : Int
deriving DecidableEq

/-- The plugin's default configuration values. -/
def defaultConfig : Config :=
  { searchKwd := "{name} {artist} MV/PV", filterLength := true,
    filterPlay := 5000 }

/-- `parseSearchResults`: `none` models `jsonData?.data?.result` being
absent or not an array (the function then returns `[]` after a warning);
otherwise each entry is normalised, missing fields defaulting to the empty
string resp. `0`, and `<em>` highlight tags are removed from the title. -/
def parseSearchResults (jsonData : Option (List RawVideo)) : List Video :=
  match jsonData with
  | none => []
  | some entries =>
    entries.map (fun video =>
      { title := match video.title with
          | some t => stripEmTags t
          | none => ""
        bvid := video.bvid.getD ""
        duration := video.duration.getD ""
        playCount := video.play.getD 0
        author := video.author.getD ""
        arcurl := video.arcurl.getD "" })

/-! ## Similarity scoring -/

/-- `calculateBaseSimilarity`: guard on falsy (empty) inputs, lower-case
both sides, then LCS length divided by the longer length.  `mkRat` is the
kernel-reducible form of that division. -/
def calculateBaseSimilarity (str1 str2 : String) : ℚ :=
  if str1 = "" ∨ str2 = "" then 0
  else
    let s1 := (lowerStr str1).data
    let s2 := (lowerStr str2).data
    mkRat (lcsLen s1 s2 : Int) (max s1.length s2.length)

/-- The cleaned video title used by `calculateSimilarity`: lower-case,
strip the five bracket pairs, strip marketing tokens, collapse
separator runs to single spaces, trim. -/
def cleanVideoTitle (videoTitle : String) : String :=
  let t := (lowerStr videoTitle).data
  let t := stripPairsF simPairs t.length t
  let t := stripMarketingF t.length t
  jsTrim ⟨collapseRuns jsIsSep t⟩

/-- `calculateSimilarity`: composite similarity of a video title against a
song and artist name.  Mirrors the source line by line; `0.3`, `0.8`,
`0.7` become `mkRat` literals and `(base + artistSim) / 2` becomes
`ratAvg`. -/
def calculateSimilarity (videoTitle songName artistName : String) : ℚ :=
  if videoTitle = "" ∨ songName = "" then 0
  else
    let song := lowerStr songName
    let artist := lowerStr artistName
    let cleanTitle := cleanVideoTitle videoTitle
    let baseSimilarity := calculateBaseSimilarity cleanTitle song
    let artistSimilarity :=
      if artist = "" then 0 else calculateBaseSimilarity cleanTitle artist
    let f1 :=
      if mkRat 3 10 < artistSimilarity then
        max baseSimilarity (ratAvg baseSimilarity artistSimilarity)
      else baseSimilarity
    let f2 :=
      if containsStr cleanTitle song then max f1 (mkRat 8 10) else f1
    let f3 :=
      if artist ≠ "" ∧
          containsStr cleanTitle (jsTrim (replaceFirst artist "official" ""))
            = true then
        max f2 (mkRat 7 10)
      else f2
    min f3 1

/-! ## Filter stages -/

/-- `filterByTitle`: pass-through when the song name is empty or blank,
otherwise keep the videos whose composite similarity reaches `0.5`. -/
def filterByTitle (videos : List Video) (songName artistName : String) :
    List Video :=
  if songName = "" ∨ jsTrim songName = "" then videos
  else
    videos.filter (fun video =>
      decide (mkRat 1 2 ≤ calculateSimilarity video.title songName artistName))

/-- `filterByPlayCount`: threshold `-1` disables the stage, otherwise keep
videos with `playCount >= playThreshold`. -/
def filterByPlayCount (videos : List Video) (playThreshold : Int) :
    List Video :=
  if playThreshold = -1 then videos
  else videos.filter (fun video => decide (playThreshold ≤ video.playCount))

/-- The duration-string parser embedded in `filterByDuration`: split on
`:`; two segments give `minutes*60 + seconds`, three give
`hours*3600 + minutes*60 + seconds`, any other segment count leaves the
initial `0`.  `parseInt(seg || 0)` on a digit-free non-empty segment is
`NaN`, modelled as `none`, which propagates through the arithmetic. -/
def videoSecondsOf (duration : String) : Option Int :=
  match splitOnChar ':' duration.data with
  | [m, s] =>
    match jsParseIntOrZero ⟨m⟩, jsParseIntOrZero ⟨s⟩ with
    | some minutes, some seconds => some (minutes * 60 + seconds)
    | _, _ => none
  | [h, m, s] =>
    match jsParseIntOrZero ⟨h⟩, jsParseIntOrZero ⟨m⟩, jsParseIntOrZero ⟨s⟩ with
    | some hours, some minutes, some seconds =>
      some (hours * 3600 + minutes * 60 + seconds)
    | _, _, _ => none
  | _ => some 0

/-- The minute-bucket predicate of `filterByDuration` stage one:
`Math.floor(videoSeconds/60) === audioMinutes`; any comparison against
`NaN` is false. -/
def minuteMatch (audioMinutes : Int) (video : Video) : Bool :=
  match videoSecondsOf video.duration with
  | some n => decide (n.fdiv 60 = audioMinutes)
  | none => false

/-- The five-second predicate of `filterByDuration` stage three on a
`(video, exactSeconds)` pair: `Math.abs(exactSeconds - audioSeconds) < 5`;
false against `NaN`. -/
def within5 (audioSeconds : Int) (p : Video × Option Int) : Bool :=
  match p.2 with
  | some n => decide ((n - audioSeconds).natAbs < 5)
  | none => false

/-- `filterByDuration`.  Disabled: return the first video (or nothing).
Enabled: stage one keeps minute-bucket matches, an empty bucket returns
`[]`, stage two re-parses each survivor into `(video, exactSeconds)`,
stage three takes the first pair within five seconds of the audio length.
The source spreads `exactSeconds` into the returned object; downstream
stages only read the original fields, so the embedding returns the
original video. -/
def filterByDuration (videos : List Video) (audioDuration : Int)
    (enableFilter : Bool) : List Video :=
  if !enableFilter then
    match videos with
    | [] => []
    | v :: _ => [v]
  else
    let audioSeconds := audioDuration.fdiv 1000
    let audioMinutes := audioSeconds.fdiv 60
    let minuteFilteredVideos := videos.filter (minuteMatch audioMinutes)
    if minuteFilteredVideos = [] then []
    else
      let videosWithExactDuration :=
        minuteFilteredVideos.map (fun v => (v, videoSecondsOf v.duration))
      match videosWithExactDuration.find? (within5 audioSeconds) with
      | some p => [p.1]
      | none => []

/-! ## Keyword construction and the cached search -/

/-- `cleanSongName`: remove the six bracket groups, collapse whitespace,
trim; a falsy (empty) input short-circuits to the empty string. -/
def cleanSongName (songName : String) : String :=
  if songName = "" then ""
  else
    jsTrim ⟨collapseRuns jsIsSpace
      (stripSongNameBracketsF songName.data.length songName.data)⟩

/-- The search keyword built in `searchVideoWithCache` step 2: substitute
the cleaned song name and the artist into the first `{name}` and
`{artist}` placeholders of the template; if the substituted template is
falsy (empty) fall back to `` `MV ${cleanedSongName} - ${artistName}` ``. -/
def buildKeyword (searchKwd songName artistName : String) : String :=
  let cleanedSongName := cleanSongName songName
  let substituted :=
    replaceFirst (replaceFirst searchKwd "{name}" cleanedSongName)
      "{artist}" artistName
  if substituted = "" then "MV " ++ cleanedSongName ++ " - " ++ artistName
  else substituted

/-- The ranking pipeline of `searchVideoWithCache` steps 3–7: parse,
title filter, duration filter, play-count filter, then the first
survivor's `bvid`; every empty intermediate stage yields `null`. -/
def rankPipeline (raw : Option (List RawVideo)) (songName artistName : String)
    (audioDuration : Int) (filterLength : Bool) (filterPlay : Int) :
    Option String :=
  let videos := parseSearchResults raw
  if videos = [] then none
  else
    let titleFilteredVideos := filterByTitle videos songName artistName
    if titleFilteredVideos = [] then none
    else
      let durationFilteredVideos :=
        filterByDuration titleFilteredVideos audioDuration filterLength
      if durationFilteredVideos = [] then none
      else
        let playFilteredVideos :=
          filterByPlayCount durationFilteredVideos filterPlay
        match playFilteredVideos with
        | [] => none
        | selectedVideo :: _ => some selectedVideo.bvid

/-- The `urlMap` cache: a JavaScript object used as a string-keyed map,
modelled as an association list in insertion order. -/
abbrev Cache := List (String × String)

/-- Property read `urlMap[songKey]`: `none` when the key is absent. -/
def cacheLookup (urlMap : Cache) (songKey : String) : Option String :=
  (urlMap.find? (fun e => decide (e.1 = songKey))).map (fun e => e.2)

/-- `cacheResult`: the assignment `urlMap[songKey] = bvid` — overwrite the
existing entry, or append a new one. -/
def cacheResult (urlMap : Cache) (songKey bvid : String) : Cache :=
  if (urlMap.find? (fun e => decide (e.1 = songKey))).isSome then
    urlMap.map (fun e => if e.1 = songKey then (songKey, bvid) else e)
  else urlMap ++ [(songKey, bvid)]

/-- `searchVideoWithCache`.  The HTTP call is abstracted into
`searchOutcome`: `Except.error` models a thrown fetch/parse error (caught,
returning `null`), `Except.ok` the decoded JSON.  Returns the result, the
updated cache, and whether the search client was invoked.  Step 1 treats a
falsy cached value (absent key, or the cached empty string) as a miss;
steps 2–7 are `buildKeyword` plus `rankPipeline`; a successful selection is
cached, `null` results are not. -/
def searchVideoWithCache (songName artistName : String) (audioDuration : Int)
    (cfg : Config) (searchOutcome : Except Unit (Option (List RawVideo)))
    (urlMap : Cache) : Option String × Cache × Bool :=
  let songKey := songName ++ "-" ++ artistName
  let cached := cacheLookup urlMap songKey
  if cached.getD "" ≠ "" then (cached, urlMap, false)
  else
    match searchOutcome with
    | .error _ => (none, urlMap, true)
    | .ok raw =>
      match rankPipeline raw songName artistName audioDuration
          cfg.filterLength cfg.filterPlay with
      | none => (none, urlMap, true)
      | some bvid => (some bvid, cacheResult urlMap songKey bvid, true)

/-! ## Search URL construction -/

/-- Characters `encodeURIComponent` leaves unescaped. -/
def uriUnreserved (c : Char) : Bool :=
  ('A' ≤ c && c ≤ 'Z') || ('a' ≤ c && c ≤ 'z') || ('0' ≤ c && c ≤ '9') ||
  c = '-' || c = '_' || c = '.' || c = '!' || c = '~' || c = '*' ||
  c = '\'' || c = '(' || c = ')'

/-- UTF-8 bytes of a code point. -/
def utf8Bytes (c : Char) : List Nat :=
  let n := c.toNat
  if n < 128 then [n]
  else if n < 2048 then [192 + n / 64, 128 + n % 64]
  else if n < 65536 then
    [224 + n / 4096, 128 + (n / 64) % 64, 128 + n % 64]
  else
    [240 + n / 262144, 128 + (n / 4096) % 64, 128 + (n / 64) % 64,
     128 + n % 64]

/-- Upper-case hexadecimal digit. -/
def toHexChar (n : Nat) : Char := "0123456789ABCDEF".data.getD n '0'

/-- Percent-encoding of one character. -/
def encodeChar (c : Char) : List Char :=
  if uriUnreserved c then [c]
  else ((utf8Bytes c).map
    (fun b => ['%', toHexChar (b / 16), toHexChar (b % 16)])).flatten

/-- `encodeURIComponent`. -/
def encodeURIComponent (s : String) : String :=
  ⟨(s.data.map encodeChar).flatten⟩

/-- The search URL built by the current `searchVideo`
(`playwithbilio.js`): `search_type=video` and the URL-encoded keyword —
no order parameter. -/
def searchVideoUrl (kwd : String) : String :=
  "https://api.bilibili.com/x/web-interface/search/type?search_type=video&keyword="
    ++ encodeURIComponent kwd

/-- The search URL built by the earlier revision's `searchVideo`, which
additionally pins the ascending-order parameter `order=a`. -/
def searchVideoUrlEarlier (kwd : String) : String :=
  "https://api.bilibili.com/x/web-interface/search/type?search_type=video&order=a&keyword="
    ++ encodeURIComponent kwd

/-! ## Playback synchronisation -/

/-- The observable state of the `<video>` element inside the iframe. -/
structure VideoEl where
  currentTime : ℚ
  volume : ℚ
  playing : Bool
deriving DecidableEq

/-- The `PlayProgress` handler: with no resolved element it does nothing;
otherwise it hard-resyncs `currentTime` when it drifts more than `0.3`
seconds from the host progress, re-asserts playback if the host audio is
observed unpaused, and unconditionally re-asserts `volume = 0`. -/
def onPlayProgress (ifrVideo : Option VideoEl) (progress : ℚ)
    (hostUnpaused : Bool) : Option VideoEl :=
  match ifrVideo with
  | none => none
  | some el =>
    let el1 :=
      if mkRat 3 10 < ratAbs (ratSub el.currentTime progress) then
        { el with currentTime := progress }
      else el
    let el2 := if hostUnpaused then { el1 with playing := true } else el1
    some { el2 with volume := 0 }

/-- What `reloadVideo` does to the video surface once the cached search
resolves. -/
inductive SurfaceAction where
  | swapSource (url : String)
  | fadeToBlank
deriving DecidableEq

/-- The `if (bvid)` decision of `reloadVideo`: a truthy (non-empty) id
swaps the iframe to the video page; `null` or the empty string fades out
and loads `about:blank`. -/
def reloadVideoDecision (bvid : Option String) : SurfaceAction :=
  match bvid with
  | some b =>
    if b ≠ "" then .swapSource ("https://www.bilibili.com/video/" ++ b)
    else .fadeToBlank
  | none => .fadeToBlank

/-! ## Specification-side definitions

Each definition below transcribes the *words* of the specification for one
claim; the theorems compare them with the source embeddings above. -/

/-- Base similarity as the specification words it: LCS length of the two
lower-cased strings divided by `max(len(a), len(b))`, and `0` (not `NaN`)
when either input is empty. -/
def calculateBaseSimilaritySpec (a b : String) : ℚ :=
  if a = "" ∨ b = "" then 0
  else
    (lcsLen (lowerStr a).data (lowerStr b).data : ℚ) /
      (max a.data.length b.data.length : ℚ)

/-- The duration filter as the specification words it: when enabled, keep
the candidates whose `floor(durationSeconds/60)` equals
`floor(track.durationMs/1000/60)` and return the first (in original
relative order) within five seconds of `floor(track.durationMs/1000)`,
the empty result if either stage exhausts the set; when disabled, return
just the first candidate of the input list. -/
def filterByDurationSpec (videos : List Video) (audioDuration : Int)
    (enableFilter : Bool) : List Video :=
  if enableFilter then
    let minuteBucket := videos.filter (fun v =>
      match videoSecondsOf v.duration with
      | some n => decide (n.fdiv 60 = audioDuration.fdiv 60000)
      | none => false)
    match minuteBucket.find? (fun v =>
      match videoSecondsOf v.duration with
      | some n => decide ((n - audioDuration.fdiv 1000).natAbs < 5)
      | none => false) with
    | some v => [v]
    | none => []
  else
    match videos with
    | [] => []
    | v :: _ => [v]

/-- Duration parsing as claimed: two segments give `minutes*60 + seconds`,
three give `hours*3600 + minutes*60 + seconds`, and any other segment
count *or any non-numeric segment* is treated as `0`. -/
def parseSecondsClaim (s : String) : Int :=
  match splitOnChar ':' s.data with
  | [m, s] =>
    (jsParseIntOrZero ⟨m⟩).getD 0 * 60 + (jsParseIntOrZero ⟨s⟩).getD 0
  | [h, m, s] =>
    (jsParseIntOrZero ⟨h⟩).getD 0 * 3600 + (jsParseIntOrZero ⟨m⟩).getD 0 * 60
      + (jsParseIntOrZero ⟨s⟩).getD 0
  | _ => 0

/-- The song-name cleaner as the specification words it, parameterised by
the generic bracket stripper over the six pairs actually present in the
source regex (`【】 [] {} () 「」 『』`). -/
def cleanSongNameSpec (songName : String) : String :=
  if songName = "" then ""
  else jsTrim ⟨collapseRuns jsIsSpace (stripPairs songNamePairs songName.data)⟩

/-- The song-name cleaner as claim C9 words it: *exactly* the §4.1 step 1
bracket set `【】 [] () 「」 『』` — without the curly-brace pair. -/
def cleanSongNameClaim (songName : String) : String :=
  if songName = "" then ""
  else jsTrim ⟨collapseRuns jsIsSpace (stripPairs simPairs songName.data)⟩

/-- Keyword construction as the specification words it, over
`cleanSongNameSpec`. -/
def buildKeywordSpec (searchKwd songName artistName : String) : String :=
  let cleaned := cleanSongNameSpec songName
  let substituted :=
    replaceFirst (replaceFirst searchKwd "{name}" cleaned) "{artist}" artistName
  if substituted = "" then "MV " ++ cleaned ++ " - " ++ artistName
  else substituted

/-- Keyword construction as claim C9 words it, over `cleanSongNameClaim`
(the five-pair bracket set). -/
def buildKeywordClaim (searchKwd songName artistName : String) : String :=
  let cleaned := cleanSongNameClaim songName
  let substituted :=
    replaceFirst (replaceFirst searchKwd "{name}" cleaned) "{artist}" artistName
  if substituted = "" then "MV " ++ cleaned ++ " - " ++ artistName
  else substituted

/-- The base score `calculateSimilarity` starts from, named for the
statement of the composite-similarity theorem. -/
def baseScoreOf (videoTitle songName : String) : ℚ :=
  calculateBaseSimilarity (cleanVideoTitle videoTitle) (lowerStr songName)

/-- The artist score used by `calculateSimilarity`, named for the
statement of the composite-similarity theorem. -/
def artistScoreOf (videoTitle artistName : String) : ℚ :=
  if lowerStr artistName = "" then 0
  else calculateBaseSimilarity (cleanVideoTitle videoTitle) (lowerStr artistName)

/-- No cache key maps to more than one stored id. -/
def NoDupKeys (urlMap : Cache) : Prop :=
  (urlMap.map (fun e => e.1)).Nodup

/-! ## Concrete inputs used by the end-to-end scenarios -/

/-- First raw entry of the end-to-end scenario: highlighted title,
duration `3:45`, ten thousand plays, id `BV1`. -/
def rawC1a : RawVideo :=
  { title := some "<em class=\"keyword\">晴天</em> Official MV",
    bvid := some "BV1", duration := some "3:45", play := some 10000,
    author := some "A", arcurl := some "u1" }

/-- Second raw entry of the end-to-end scenario: unrelated title, one
play, id `BV2`. -/
def rawC1b : RawVideo :=
  { title := some "Unrelated", bvid := some "BV2", duration := some "3:44",
    play := some 1, author := some "B", arcurl := some "u2" }

/-- A raw entry that matches the track perfectly but carries no `bvid`
field, so parsing defaults its id to the empty string. -/
def rawNoBvid : RawVideo :=
  { title := some "晴天", bvid := none, duration := some "3:45",
    play := some 10000, author := some "A", arcurl := none }

/-- A parsed candidate whose duration string has a digit-free first
segment. -/
def vidBadSegment : Video :=
  { title := "晴天", bvid := "BVx", duration := "a:45", playCount := 10000,
    author := "A", arcurl := "u" }

/-- A well-formed parsed candidate matching a 225-second track. -/
def vidGood : Video :=
  { title := "晴天", bvid := "BV1", duration := "3:45", playCount := 10000,
    author := "A", arcurl := "u1" }

/-! ## Bridging lemmas for the kernel-reducible rational helpers -/

theorem ratAvg_eq (x y : ℚ) : ratAvg x y = (x + y) / 2 := by
  have hx : (x.den : ℚ) ≠ 0 := by exact_mod_cast x.den_ne_zero
  have hy : (y.den : ℚ) ≠ 0 := by exact_mod_cast y.den_ne_zero
  have h1 := Rat.num_div_den x
  have h2 := Rat.num_div_den y
  rw [ratAvg, Rat.mkRat_eq_div]
  push_cast
  generalize (x.num : ℚ) = na at h1 ⊢
  generalize ((x.den : ℕ) : ℚ) = da at h1 hx ⊢
  generalize (y.num : ℚ) = nb at h2 ⊢
  generalize ((y.den : ℕ) : ℚ) = db at h2 hy ⊢
  rw [← h1, ← h2, div_add_div _ _ hx hy, div_div,
    div_eq_div_iff (mul_ne_zero two_ne_zero (mul_ne_zero hx hy))
      (mul_ne_zero (mul_ne_zero hx hy) two_ne_zero)]
  ring

theorem ratSub_eq (x y : ℚ) : ratSub x y = x - y := by
  have hx : (x.den : ℚ) ≠ 0 := by exact_mod_cast x.den_ne_zero
  have hy : (y.den : ℚ) ≠ 0 := by exact_mod_cast y.den_ne_zero
  have h1 := Rat.num_div_den x
  have h2 := Rat.num_div_den y
  rw [ratSub, Rat.mkRat_eq_div]
  push_cast
  generalize (x.num : ℚ) = na at h1 ⊢
  generalize ((x.den : ℕ) : ℚ) = da at h1 hx ⊢
  generalize (y.num : ℚ) = nb at h2 ⊢
  generalize ((y.den : ℕ) : ℚ) = db at h2 hy ⊢
  rw [← h1, ← h2]
  field_simp
  ring

theorem ratAbs_eq (x : ℚ) : ratAbs x = |x| := by
  rcases le_or_lt 0 x with h | h
  · rw [ratAbs, abs_of_nonneg h,
      Int.natAbs_of_nonneg (Rat.num_nonneg.mpr h), Rat.mkRat_self]
  · rw [ratAbs, abs_of_neg h,
      Int.ofNat_natAbs_of_nonpos (le_of_lt (Rat.num_neg.mpr h)),
      ← Rat.neg_mkRat, Rat.mkRat_self]

/-! ## Bounds for the LCS-based base similarity -/

theorem lcsF_le_left (f : Nat) : ∀ s t : List Char, lcsF f s t ≤ s.length := by
  induction f with
  | zero => intro s t; simp [lcsF]
  | succ f ih =>
    intro s t
    match s, t with
    | [], _ => simp [lcsF]
    | _ :: _, [] => simp [lcsF]
    | a :: as, b :: bs =>
      simp only [lcsF, List.length_cons]
      split
      · have := ih as bs; omega
      · have h1 := ih (a :: as) bs
        have h2 := ih as (b :: bs)
        simp only [List.length_cons] at h1
        omega

theorem lcsF_le_right (f : Nat) : ∀ s t : List Char, lcsF f s t ≤ t.length := by
  induction f with
  | zero => intro s t; simp [lcsF]
  | succ f ih =>
    intro s t
    match s, t with
    | [], _ => simp [lcsF]
    | _ :: _, [] => simp [lcsF]
    | a :: as, b :: bs =>
      simp only [lcsF, List.length_cons]
      split
      · have := ih as bs; omega
      · have h1 := ih (a :: as) bs
        have h2 := ih as (b :: bs)
        simp only [List.length_cons] at h2
        omega

theorem lcsLen_le_max (s t : List Char) :
    lcsLen s t ≤ max s.length t.length :=
  le_max_of_le_left (lcsF_le_left _ s t)

theorem String.eq_empty_of_data_eq_nil {s : String} (h : s.data = []) :
    s = "" := by
  cases s
  simp_all [String.ext_iff]

theorem lowerStr_data_length (s : String) :
    (lowerStr s).data.length = s.data.length := by
  simp [lowerStr]

theorem calculateBaseSimilarity_nonneg (a b : String) :
    0 ≤ calculateBaseSimilarity a b := by
  rw [calculateBaseSimilarity]
  split
  · exact le_refl 0
  · rw [Rat.mkRat_eq_div]
    positivity

theorem calculateBaseSimilarity_le_one (a b : String) :
    calculateBaseSimilarity a b ≤ 1 := by
  rw [calculateBaseSimilarity]
  split
  · norm_num
  · rename_i h
    push_neg at h
    have ha : (lowerStr a).data ≠ [] := by
      intro hnil
      exact h.1 (String.eq_empty_of_data_eq_nil (by
        have := lowerStr_data_length a
        rw [hnil] at this
        exact List.length_eq_zero.mp this.symm))
    have hpos : 0 < max (lowerStr a).data.length (lowerStr b).data.length :=
      lt_of_lt_of_le (List.length_pos.mpr ha) (le_max_left _ _)
    rw [Rat.mkRat_eq_div]
    rw [div_le_one (by exact_mod_cast hpos)]
    exact_mod_cast lcsLen_le_max _ _

/-- Claim C4: the base similarity score equals the longest-common-
subsequence length of the two lower-cased strings divided by
`max(len(a), len(b))`, lies in `[0, 1]`, is `0` (not `NaN`) when either
input is empty, and takes the claimed values on the three test vectors. -/
theorem C4_base_similarity :
    (∀ a b : String,
      calculateBaseSimilarity a b = calculateBaseSimilaritySpec a b ∧
      0 ≤ calculateBaseSimilarity a b ∧ calculateBaseSimilarity a b ≤ 1 ∧
      calculateBaseSimilarity "" b = 0 ∧ calculateBaseSimilarity a "" = 0) ∧
    calculateBaseSimilarity "abc" "abc" = 1 ∧
    calculateBaseSimilarity "" "x" = 0 ∧
    calculateBaseSimilarity "abcdef" "abc" = mkRat 1 2 := by
  refine ⟨fun a b => ⟨?_, calculateBaseSimilarity_nonneg a b,
    calculateBaseSimilarity_le_one a b, by simp [calculateBaseSimilarity],
    by simp [calculateBaseSimilarity]⟩, by decide, by decide, by decide⟩
  rw [calculateBaseSimilarity, calculateBaseSimilaritySpec]
  split
  · rfl
  · rw [Rat.mkRat_eq_div, lowerStr_data_length, lowerStr_data_length]
    push_cast
    ring

/-! ## The composite similarity (claim C5) -/

theorem artistScoreOf_nonneg (vt an : String) : 0 ≤ artistScoreOf vt an := by
  rw [artistScoreOf]
  split
  · exact le_refl 0
  · exact calculateBaseSimilarity_nonneg _ _

theorem artistScoreOf_le_one (vt an : String) : artistScoreOf vt an ≤ 1 := by
  rw [artistScoreOf]
  split
  · norm_num
  · exact calculateBaseSimilarity_le_one _ _

/-- Claim C5 (amended): for non-empty `videoTitle` and `songName` the
composite similarity starts from `base = score(cleanedTitle, songName)`
and never drops below it; an artist score above `0.3` raises the result to
at least `max(base, (base + artistSim)/2)`; a cleaned title containing the
lower-cased song name verbatim forces at least `0.8`; a cleaned title
containing the (non-empty) lower-cased artist name with the first
`"official"` occurrence stripped and trimmed forces at least `0.7`; the
result never exceeds `1.0`.  When `videoTitle` or `songName` is empty the
guard returns `0` instead. -/
theorem C5_composite_similarity :
    ∀ videoTitle songName artistName : String,
      calculateSimilarity videoTitle songName artistName ≤ 1 ∧
      (videoTitle = "" ∨ songName = "" →
        calculateSimilarity videoTitle songName artistName = 0) ∧
      (videoTitle ≠ "" → songName ≠ "" →
        baseScoreOf videoTitle songName ≤
          calculateSimilarity videoTitle songName artistName ∧
        (mkRat 3 10 < artistScoreOf videoTitle artistName →
          max (baseScoreOf videoTitle songName)
              ((baseScoreOf videoTitle songName +
                artistScoreOf videoTitle artistName) / 2) ≤
            calculateSimilarity videoTitle songName artistName) ∧
        (containsStr (cleanVideoTitle videoTitle) (lowerStr songName)
            = true →
          mkRat 8 10 ≤ calculateSimilarity videoTitle songName artistName) ∧
        (lowerStr artistName ≠ "" →
          containsStr (cleanVideoTitle videoTitle)
              (jsTrim (replaceFirst (lowerStr artistName) "official" ""))
            = true →
          mkRat 7 10 ≤ calculateSimilarity videoTitle songName artistName)) := by
  intro vt sn an
  have hB0 := calculateBaseSimilarity_nonneg (cleanVideoTitle vt) (lowerStr sn)
  have hB1 := calculateBaseSimilarity_le_one (cleanVideoTitle vt) (lowerStr sn)
  have hA0 := artistScoreOf_nonneg vt an
  have hA1 := artistScoreOf_le_one vt an
  refine ⟨?_, ?_, ?_⟩
  · rw [calculateSimilarity]
    split
    · norm_num
    · exact min_le_right _ _
  · intro h
    rw [calculateSimilarity, if_pos h]
  · intro h1 h2
    have hguard : ¬(vt = "" ∨ sn = "") := by tauto
    have hbase :
        calculateBaseSimilarity (cleanVideoTitle vt) (lowerStr sn) =
          baseScoreOf vt sn := rfl
    have hartist :
        (if lowerStr an = "" then 0
         else calculateBaseSimilarity (cleanVideoTitle vt) (lowerStr an)) =
          artistScoreOf vt an := rfl
    refine ⟨?_, ?_, ?_, ?_⟩
    · simp only [calculateSimilarity, if_neg hguard, hbase, hartist]
      refine le_min ?_ hB1
      split_ifs <;> simp [le_max_iff]
    · intro h3
      simp only [calculateSimilarity, if_neg hguard, hbase, hartist,
        ratAvg_eq]
      refine le_min ?_ (max_le hB1 (by linarith))
      split_ifs <;>
        first
          | exact absurd h3 (by assumption)
          | simp [max_le_iff, le_max_iff]
    · intro h3
      simp only [calculateSimilarity, if_neg hguard, hbase, hartist]
      refine le_min ?_ (by norm_num)
      split_ifs <;>
        first
          | exact absurd h3 (by assumption)
          | simp [max_le_iff, le_max_iff]
    · intro h3 h4
      simp only [calculateSimilarity, if_neg hguard, hbase, hartist]
      refine le_min ?_ (by norm_num)
      split_ifs <;>
        first
          | exact absurd (And.intro h3 h4) (by assumption)
          | simp [max_le_iff, le_max_iff]

/-- Counterexample to claim C5 as stated: with an empty song name the
cleaned title trivially contains it, yet the guard of
`calculateSimilarity` returns `0 < 0.8`. -/
theorem C5_counterexample :
    containsStr (cleanVideoTitle "x") (lowerStr "") = true ∧
    calculateSimilarity "x" "" "y" = 0 ∧
    ¬ mkRat 8 10 ≤ calculateSimilarity "x" "" "y" := by decide

/-- Witness for `C5_composite_similarity` at a concrete matching title. -/
theorem C5_witness :
    mkRat 8 10 ≤ calculateSimilarity "晴天 Official MV" "晴天" "周杰伦" :=
  ((C5_composite_similarity "晴天 Official MV" "晴天" "周杰伦").2.2
    (by decide) (by decide)).2.2.1 (by decide)

/-! ## The duration filter (claim C2) -/

theorem fdiv_fdiv_of_pos (a : ℤ) {b c : ℤ} (hb : 0 < b) (hc : 0 < c) :
    (a.fdiv b).fdiv c = a.fdiv (b * c) := by
  rw [Int.fdiv_eq_ediv a (le_of_lt hb), Int.fdiv_eq_ediv _ (le_of_lt hc),
    Int.fdiv_eq_ediv a (by positivity)]
  have hbc : (0 : ℤ) < b * c := by positivity
  have hr0 : 0 ≤ a % (b * c) := Int.emod_nonneg a (ne_of_gt hbc)
  have hrlt : a % (b * c) < b * c := Int.emod_lt_of_pos a hbc
  have hdecomp : a = a % (b * c) + b * (c * (a / (b * c))) := by
    have h := Int.ediv_add_emod a (b * c)
    linear_combination -h
  have h1 : a / b = a % (b * c) / b + c * (a / (b * c)) := by
    conv_lhs => rw [hdecomp]
    rw [Int.add_mul_ediv_left _ _ (ne_of_gt hb)]
  have h2 : a % (b * c) / b < c := by
    apply Int.ediv_lt_of_lt_mul hb
    calc a % (b * c) < b * c := hrlt
    _ = c * b := by ring
  have h3 : 0 ≤ a % (b * c) / b := Int.ediv_nonneg hr0 (le_of_lt hb)
  rw [h1, Int.add_mul_ediv_left _ _ (ne_of_gt hc),
    Int.ediv_eq_zero_of_lt h3 h2, zero_add]

theorem audioMinutes_eq (d : ℤ) : (d.fdiv 1000).fdiv 60 = d.fdiv 60000 := by
  have h := fdiv_fdiv_of_pos d (b := 1000) (c := 60) (by norm_num) (by norm_num)
  simpa using h

/-- Claim C2: with duration filtering enabled, the filter keeps exactly
the candidates whose `floor(durationSeconds/60)` equals
`floor(track.durationMs/1000/60)` and returns, among those in their
original relative order, the first whose
`|durationSeconds − floor(track.durationMs/1000)| < 5`, the empty result
if either stage exhausts the set; with it disabled, it returns just the
first candidate of the input list. -/
theorem C2_duration_filter :
    ∀ (videos : List Video) (audioDuration : Int) (enableFilter : Bool),
      filterByDuration videos audioDuration enableFilter =
        filterByDurationSpec videos audioDuration enableFilter := by
  intro videos dur enable
  cases enable with
  | false => rfl
  | true =>
    simp only [filterByDuration, filterByDurationSpec, Bool.not_true,
      Bool.false_eq_true, if_false, if_true]
    have hpred : videos.filter (minuteMatch ((dur.fdiv 1000).fdiv 60)) =
        videos.filter (fun v =>
          match videoSecondsOf v.duration with
          | some n => decide (n.fdiv 60 = dur.fdiv 60000)
          | none => false) := by
      apply List.filter_congr
      intro v _
      rw [minuteMatch, audioMinutes_eq]
    rw [hpred]
    by_cases hmf : videos.filter (fun v =>
        match videoSecondsOf v.duration with
        | some n => decide (n.fdiv 60 = dur.fdiv 60000)
        | none => false) = []
    · rw [if_pos hmf, hmf]
      rfl
    · rw [if_neg hmf, List.find?_map]
      have hcomp : within5 (dur.fdiv 1000) ∘
          (fun v => (v, videoSecondsOf v.duration)) = (fun v =>
            match videoSecondsOf v.duration with
            | some n => decide ((n - dur.fdiv 1000).natAbs < 5)
            | none => false) := rfl
      rw [hcomp]
      cases hfind : (videos.filter (fun v =>
          match videoSecondsOf v.duration with
          | some n => decide (n.fdiv 60 = dur.fdiv 60000)
          | none => false)).find? (fun v =>
            match videoSecondsOf v.duration with
            | some n => decide ((n - dur.fdiv 1000).natAbs < 5)
            | none => false) with
      | none => rfl
      | some v => rfl

/-! ## Duration parsing (claims C3 and C1) -/

theorem splitOnChar_ne_nil (sep : Char) (cs : List Char) :
    splitOnChar sep cs ≠ [] := by
  cases cs with
  | nil => simp [splitOnChar]
  | cons c cs =>
    simp only [splitOnChar]
    cases h : splitOnChar sep cs with
    | nil => simp
    | cons g gs => by_cases hc : c = sep <;> simp [hc]

theorem splitOnChar_of_not_mem {sep : Char} :
    ∀ {cs : List Char}, sep ∉ cs → splitOnChar sep cs = [cs] := by
  intro cs h
  induction cs with
  | nil => rfl
  | cons c cs ih =>
    have h1 : c ≠ sep := fun e => h (e ▸ List.mem_cons_self c cs)
    have h2 : sep ∉ cs := fun hm => h (List.mem_cons_of_mem _ hm)
    simp only [splitOnChar, ih h2]
    rw [if_neg h1]

theorem splitOnChar_append (sep : Char) :
    ∀ (a b : List Char), sep ∉ a →
      splitOnChar sep (a ++ sep :: b) = a :: splitOnChar sep b := by
  intro a
  induction a with
  | nil =>
    intro b _
    simp only [List.nil_append, splitOnChar]
    cases h : splitOnChar sep b with
    | nil => exact absurd h (splitOnChar_ne_nil sep b)
    | cons g gs => simp
  | cons c a ih =>
    intro b h
    have h1 : c ≠ sep := fun e => h (e ▸ List.mem_cons_self c a)
    have h2 : sep ∉ a := fun hm => h (List.mem_cons_of_mem _ hm)
    simp only [List.cons_append, splitOnChar, List.append_eq]
    rw [ih b h2]
    dsimp only
    rw [if_neg h1]

/-- Claim C3 (amended): duration parsing is total (it is a function into
`Option Int` where `none` models `NaN`, and never throws); two
colon-free segments parse to `minutes*60 + seconds` under
`parseInt(seg || 0)` semantics, with the `NaN` of a digit-free non-empty
segment propagating instead of becoming `0`; the four claimed test
vectors hold; and an entry whose duration fails to parse is skipped by
the enabled duration filter, never selected and never fatal. -/
theorem C3_duration_parsing :
    videoSecondsOf "3:45" = some 225 ∧
    videoSecondsOf "1:02:03" = some 3723 ∧
    videoSecondsOf "" = some 0 ∧
    videoSecondsOf "abc" = some 0 ∧
    (∀ a b : String, ':' ∉ a.data → ':' ∉ b.data →
      videoSecondsOf (a ++ ":" ++ b) =
        (jsParseIntOrZero a).bind (fun m =>
          (jsParseIntOrZero b).map (fun s => m * 60 + s))) ∧
    (∀ (videos : List Video) (audioDuration : Int) (v : Video),
      v ∈ filterByDuration videos audioDuration true →
      (videoSecondsOf v.duration).isSome = true) := by
  refine ⟨by decide, by decide, by decide, by decide, ?_, ?_⟩
  · intro a b ha hb
    have hdata : (a ++ ":" ++ b).data = a.data ++ ':' :: b.data := by
      simp [String.data_append]
    rw [videoSecondsOf, hdata, splitOnChar_append _ _ _ ha,
      splitOnChar_of_not_mem hb]
    dsimp only
    rw [show (⟨a.data⟩ : String) = a from rfl,
      show (⟨b.data⟩ : String) = b from rfl]
    cases jsParseIntOrZero a <;> cases jsParseIntOrZero b <;> rfl
  · intro videos dur v hv
    simp only [filterByDuration, Bool.not_true, Bool.false_eq_true,
      if_false] at hv
    by_cases hmf : videos.filter (minuteMatch ((dur.fdiv 1000).fdiv 60)) = []
    · rw [if_pos hmf] at hv
      simp at hv
    · rw [if_neg hmf] at hv
      rcases hfind : ((videos.filter
          (minuteMatch ((dur.fdiv 1000).fdiv 60))).map
            (fun v => (v, videoSecondsOf v.duration))).find?
              (within5 (dur.fdiv 1000)) with _ | p
      · rw [hfind] at hv
        simp at hv
      · rw [hfind] at hv
        simp only [List.mem_singleton] at hv
        subst hv
        have hp := List.find?_some hfind
        have hmem := List.mem_of_find?_eq_some hfind
        rw [List.mem_map] at hmem
        obtain ⟨w, hw, hwp⟩ := hmem
        rw [← hwp] at hp ⊢
        simp only [within5] at hp
        cases hws : videoSecondsOf w.duration with
        | none =>
          rw [hws] at hp
          simp at hp
        | some n => simp [hws]

/-- Counterexample to claim C3 as stated: the two-segment string `"a:45"`
has a non-numeric first segment; under the claim's treat-as-`0` semantics
it would parse to `45` seconds and be selected for a 45-second track, but
the code propagates `NaN` and the enabled duration filter drops the
entry. -/
theorem C3_counterexample :
    videoSecondsOf "a:45" = none ∧
    parseSecondsClaim "a:45" = 45 ∧
    filterByDuration [vidBadSegment] 45000 true = [] ∧
    (parseSecondsClaim "a:45").fdiv 60 = (45000 : Int).fdiv 60000 ∧
    (parseSecondsClaim "a:45" - (45000 : Int).fdiv 1000).natAbs < 5 := by
  decide

/-- Witness for `C3_duration_parsing` at concrete segments and a concrete
filter run. -/
theorem C3_witness :
    videoSecondsOf ("3" ++ ":" ++ "45") =
      (jsParseIntOrZero "3").bind (fun m =>
        (jsParseIntOrZero "45").map (fun s => m * 60 + s)) ∧
    (videoSecondsOf vidGood.duration).isSome = true :=
  ⟨C3_duration_parsing.2.2.2.2.1 "3" "45" (by decide) (by decide),
   C3_duration_parsing.2.2.2.2.2 [vidGood] 225000 vidGood (by decide)⟩

/-- Claim C1: on the two raw search results of the end-to-end scenario,
with the track `晴天 / 周杰伦 / 225000 ms`, duration filtering enabled and
play threshold `5000`, the full pipeline (parse with `<em>` stripping,
title filter at `0.5`, duration filter, play-count filter) selects exactly
the candidate with id `"BV1"`. -/
theorem C1_end_to_end :
    rankPipeline (some [rawC1a, rawC1b]) "晴天" "周杰伦" 225000 true 5000
      = some "BV1" := by
  decide

/-! ## The search cache (claims C6 and C10) -/

theorem lookup_overwrite (k v : String) :
    ∀ m : Cache, (m.find? (fun e => decide (e.1 = k))).isSome →
      cacheLookup (m.map (fun e => if e.1 = k then (k, v) else e)) k
        = some v := by
  intro m
  induction m with
  | nil => intro h; simp at h
  | cons e rest ih =>
    intro h
    by_cases he : e.1 = k
    · simp [cacheLookup, he, List.find?]
    · have he' : decide (e.1 = k) = false := by simp [he]
      have h' : (rest.find? (fun e => decide (e.1 = k))).isSome := by
        simp only [List.find?, he'] at h
        exact h
      have hrec := ih h'
      rw [List.map_cons, show (if e.1 = k then (k, v) else e) = e
          from if_neg he, cacheLookup]
      simp only [List.find?, he']
      exact hrec

theorem lookup_append_new (k v : String) :
    ∀ m : Cache, m.find? (fun e => decide (e.1 = k)) = none →
      cacheLookup (m ++ [(k, v)]) k = some v := by
  intro m
  induction m with
  | nil => intro _; simp [cacheLookup, List.find?]
  | cons e rest ih =>
    intro h
    have he : decide (e.1 = k) = false := by
      by_contra hd
      simp only [Bool.not_eq_false] at hd
      simp only [List.find?, hd] at h
      exact Option.noConfusion h
    have h' : rest.find? (fun e => decide (e.1 = k)) = none := by
      simp only [List.find?, he] at h
      exact h
    rw [List.cons_append, cacheLookup]
    simp only [List.find?, he]
    exact ih h'

theorem cacheLookup_cacheResult (m : Cache) (k v : String) :
    cacheLookup (cacheResult m k v) k = some v := by
  rw [cacheResult]
  split
  · exact lookup_overwrite k v m (by assumption)
  · rename_i hn
    exact lookup_append_new k v m
      (Option.not_isSome_iff_eq_none.mp (by simpa using hn))

theorem nodup_cacheResult (m : Cache) (k v : String) (h : NoDupKeys m) :
    NoDupKeys (cacheResult m k v) := by
  rw [cacheResult]
  split
  · have hkeys : (m.map (fun e => if e.1 = k then (k, v) else e)).map
        (fun e => e.1) = m.map (fun e => e.1) := by
      rw [List.map_map]
      apply List.map_congr_left
      intro e _
      by_cases he : e.1 = k <;> simp [he, Function.comp]
    rw [NoDupKeys, hkeys]
    exact h
  · rename_i hn
    have hnone : m.find? (fun e => decide (e.1 = k)) = none :=
      Option.not_isSome_iff_eq_none.mp (by simpa using hn)
    have hk : ∀ e ∈ m, e.1 ≠ k := by
      intro e he
      have := List.find?_eq_none.mp hnone e he
      simpa using this
    rw [NoDupKeys, List.map_append]
    refine List.Nodup.append h (List.nodup_singleton k) ?_
    intro a ha hb
    simp only [List.map_cons, List.map_nil, List.mem_singleton] at hb
    subst hb
    rw [List.mem_map] at ha
    obtain ⟨e, hem, he1⟩ := ha
    exact hk e hem he1

/-- Claim C6 (amended): the cache stores at most one id per key
(`songName ++ "-" ++ artistName`), and after a first
`searchVideoWithCache` call that stored a *non-empty* id, a second call
with the same key does not invoke the search client and returns the
stored id (so the invocation count stays at one).  A first call that
returns `null` stores nothing, and a stored empty string is treated as a
miss, so those cases re-search (see the counterexample). -/
theorem C6_cache :
    (∀ (m : Cache) (k v : String),
      NoDupKeys m → NoDupKeys (cacheResult m k v)) ∧
    (∀ (songName artistName : String) (audioDuration : Int) (cfg : Config)
      (out out₂ : Except Unit (Option (List RawVideo))) (c₀ c₁ : Cache)
      (b : String) (i : Bool),
      searchVideoWithCache songName artistName audioDuration cfg out c₀
        = (some b, c₁, i) →
      b ≠ "" →
      searchVideoWithCache songName artistName audioDuration cfg out₂ c₁
        = (some b, c₁, false)) := by
  refine ⟨fun m k v h => nodup_cacheResult m k v h, ?_⟩
  intro sn an dur cfg out out₂ c₀ c₁ b i h hb
  simp only [searchVideoWithCache] at h
  split_ifs at h with hcached
  · simp only [Prod.mk.injEq] at h
    obtain ⟨h1, h2, _⟩ := h
    subst h2
    simp only [searchVideoWithCache, h1]
    rw [if_pos (by simpa using hb)]
  · rcases out with e | raw
    · simp at h
    · dsimp only at h
      rcases hr : rankPipeline raw sn an dur cfg.filterLength cfg.filterPlay
        with _ | bvid
      · rw [hr] at h
        simp at h
      · rw [hr] at h
        dsimp only at h
        simp only [Prod.mk.injEq] at h
        obtain ⟨h1, h2, _⟩ := h
        rw [Option.some_inj] at h1
        subst h1
        subst h2
        simp only [searchVideoWithCache, cacheLookup_cacheResult]
        rw [if_pos (by simpa using hb)]

/-- Counterexample to claim C6 as stated: a selected candidate with an
empty `bvid` is stored, yet the second call for the same key treats the
falsy cached value as a miss and invokes the search client again — the
invocation count after two calls is two, not one. -/
theorem C6_counterexample :
    searchVideoWithCache "晴天" "周杰伦" 225000 defaultConfig
        (.ok (some [rawNoBvid])) []
      = (some "", [("晴天-周杰伦", "")], true) ∧
    (searchVideoWithCache "晴天" "周杰伦" 225000 defaultConfig
        (.ok (some [rawNoBvid])) [("晴天-周杰伦", "")]).2.2 = true := by
  decide

/-- Witness for `C6_cache`: after the end-to-end scenario stores `"BV1"`,
a repeated call returns it from the cache without consulting the search
oracle (here an erroring one). -/
theorem C6_witness :
    NoDupKeys (cacheResult [("a", "x")] "b" "y") ∧
    searchVideoWithCache "晴天" "周杰伦" 225000 defaultConfig
        (Except.error ()) [("晴天-周杰伦", "BV1")]
      = (some "BV1", [("晴天-周杰伦", "BV1")], false) :=
  ⟨C6_cache.1 [("a", "x")] "b" "y" (by simp [NoDupKeys]),
   C6_cache.2 "晴天" "周杰伦" 225000 defaultConfig
     (.ok (some [rawC1a, rawC1b])) (Except.error ()) []
     [("晴天-周杰伦", "BV1")] "BV1" true (by decide) (by decide)⟩

/-- Claim C10: a selected candidate whose raw entry lacks a `bvid` gets
the parse-stage default empty string; `searchVideoWithCache` stores and
returns that empty string; `reloadVideo` treats the falsy id as "no
matching video" (fade out to `about:blank`, never a source swap); and a
later lookup for the same key treats the cached empty string as a miss
and searches again. -/
theorem C10_empty_bvid_flow :
    parseSearchResults (some [rawNoBvid]) =
      [{ title := "晴天", bvid := "", duration := "3:45",
         playCount := 10000, author := "A", arcurl := "" }] ∧
    searchVideoWithCache "晴天" "周杰伦" 225000 defaultConfig
        (.ok (some [rawNoBvid])) []
      = (some "", [("晴天-周杰伦", "")], true) ∧
    reloadVideoDecision (some "") = SurfaceAction.fadeToBlank ∧
    reloadVideoDecision none = SurfaceAction.fadeToBlank ∧
    (searchVideoWithCache "晴天" "周杰伦" 225000 defaultConfig
        (.ok (some [rawNoBvid])) [("晴天-周杰伦", "")]).2.2 = true := by
  decide

/-! ## The progress-tick handler (claim C7) -/

/-- Claim C7 (amended): on a progress tick with a resolved element, the
handler forces `currentTime` to the host progress exactly when the
difference exceeds `0.3` seconds, re-asserts `volume = 0` on every tick,
and re-asserts playback when the host audio is observed unpaused.  In
particular progress `10.5` against surface time `10.0` *does* correct
(diff `0.5 > 0.3`), progress `10.9` corrects, and progress `10.2` does
not. -/
theorem C7_progress_tick :
    (∀ (el : VideoEl) (progress : ℚ) (hostUnpaused : Bool),
      onPlayProgress (some el) progress hostUnpaused =
        some { currentTime :=
                 if mkRat 3 10 < |el.currentTime - progress| then progress
                 else el.currentTime,
               volume := 0,
               playing := hostUnpaused || el.playing }) ∧
    (∀ (progress : ℚ) (hostUnpaused : Bool),
      onPlayProgress none progress hostUnpaused = none) ∧
    onPlayProgress (some ⟨10, 1, false⟩) (mkRat 21 2) false
      = some ⟨mkRat 21 2, 0, false⟩ ∧
    onPlayProgress (some ⟨10, 1, false⟩) (mkRat 109 10) false
      = some ⟨mkRat 109 10, 0, false⟩ ∧
    onPlayProgress (some ⟨10, 1, false⟩) (mkRat 51 5) false
      = some ⟨10, 0, false⟩ := by
  refine ⟨?_, fun _ _ => rfl, by decide, by decide, by decide⟩
  intro el p host
  simp only [onPlayProgress, ratAbs_eq, ratSub_eq]
  by_cases h : mkRat 3 10 < |el.currentTime - p| <;> cases host <;> simp [h]

/-- Counterexample to claim C7 as stated: with surface `currentTime =
10.0` and host progress `10.5` the claim predicts no correction, but the
handler sets `currentTime` to `10.5`. -/
theorem C7_progress_counterexample :
    (onPlayProgress (some ⟨10, 1, false⟩) (mkRat 21 2) false).map
        (fun el => el.currentTime) = some (mkRat 21 2) ∧
    (onPlayProgress (some ⟨10, 1, false⟩) (mkRat 21 2) false).map
        (fun el => el.currentTime) ≠ some 10 := by
  decide

/-! ## The search URL (claim C8) -/

theorem leadsWith_iff :
    ∀ (t l : List Char), leadsWith t l = true ↔ ∃ r, l = t ++ r := by
  intro t
  induction t with
  | nil => intro l; simp [leadsWith]
  | cons a as ih =>
    intro l
    cases l with
    | nil => simp [leadsWith]
    | cons b bs =>
      simp only [leadsWith, Bool.and_eq_true, decide_eq_true_eq, ih bs]
      constructor
      · rintro ⟨hab, r, hr⟩
        cases hab
        exact ⟨r, by rw [List.cons_append, hr]⟩
      · rintro ⟨r, hr⟩
        rw [List.cons_append] at hr
        injection hr with h1 h2
        exact ⟨h1.symm, r, h2⟩

theorem hasSubstr_true_iff :
    ∀ (hay t : List Char),
      hasSubstr hay t = true ↔ ∃ l r, hay = l ++ (t ++ r) := by
  intro hay
  induction hay with
  | nil =>
    intro t
    simp only [hasSubstr, List.isEmpty_iff]
    constructor
    · intro h; exact ⟨[], [], by simp [h]⟩
    · rintro ⟨l, r, hr⟩
      rcases List.append_eq_nil.mp hr.symm with ⟨_, h2⟩
      rcases List.append_eq_nil.mp h2 with ⟨h3, _⟩
      exact h3
  | cons c cs ih =>
    intro t
    simp only [hasSubstr, Bool.or_eq_true, leadsWith_iff, ih]
    constructor
    · rintro (⟨r, hr⟩ | ⟨l, r, hr⟩)
      · exact ⟨[], r, by simp [hr]⟩
      · exact ⟨c :: l, r, by simp [hr]⟩
    · rintro ⟨l, r, hr⟩
      cases l with
      | nil =>
        left
        exact ⟨r, by simpa using hr⟩
      | cons x xs =>
        right
        rw [List.cons_append] at hr
        injection hr with _ h2
        exact ⟨xs, r, h2⟩

theorem hasSubstr_append_left (a b t : List Char)
    (h : hasSubstr a t = true) : hasSubstr (a ++ b) t = true := by
  rw [hasSubstr_true_iff] at h ⊢
  obtain ⟨l, r, hr⟩ := h
  exact ⟨l, r ++ b, by rw [hr]; simp⟩

theorem toHexChar_ne_eq (n : Nat) : toHexChar n ≠ '=' := by
  rw [toHexChar]
  by_cases hn : n < 16
  · have hb : ∀ m, m < 16 → "0123456789ABCDEF".data.getD m '0' ≠ '=' := by
      decide
    exact hb n hn
  · rw [List.getD_eq_default _ _ (show "0123456789ABCDEF".data.length ≤ n by
      rw [show "0123456789ABCDEF".data.length = 16 from rfl]; omega)]
    decide

theorem encodeChar_no_eq (c : Char) : '=' ∉ encodeChar c := by
  rw [encodeChar]
  split
  · rename_i hu
    intro hm
    rw [List.mem_singleton] at hm
    rw [← hm] at hu
    exact absurd hu (by decide)
  · intro hm
    rw [List.mem_flatten] at hm
    obtain ⟨s, hs, hmem⟩ := hm
    rw [List.mem_map] at hs
    obtain ⟨bb, _, rfl⟩ := hs
    simp only [List.mem_cons, List.mem_singleton, List.not_mem_nil,
      or_false] at hmem
    rcases hmem with h1 | h2 | h3
    · exact absurd h1 (by decide)
    · exact toHexChar_ne_eq _ h2.symm
    · exact toHexChar_ne_eq _ h3.symm

theorem encode_no_eq (s : String) : '=' ∉ (encodeURIComponent s).data := by
  rw [encodeURIComponent]
  intro hm
  rw [show (⟨(s.data.map encodeChar).flatten⟩ : String).data
      = (s.data.map encodeChar).flatten from rfl] at hm
  rw [List.mem_flatten] at hm
  obtain ⟨l, hl, hml⟩ := hm
  rw [List.mem_map] at hl
  obtain ⟨c, _, rfl⟩ := hl
  exact encodeChar_no_eq c hml

theorem hasSubstr_of_append_last (P E t : List Char) (c : Char)
    (hlast : t.getLast? = some c) (hcE : c ∉ E)
    (h : hasSubstr (P ++ E) t = true) : hasSubstr P t = true := by
  obtain ⟨l, r, heq⟩ := (hasSubstr_true_iff _ _).mp h
  have ht : t ≠ [] := by
    intro h0
    rw [h0] at hlast
    simp at hlast
  have htlen : 0 < t.length := List.length_pos.mpr ht
  have hlen : l.length + t.length ≤ P.length := by
    by_contra hgt
    push_neg at hgt
    have hidx : (l ++ (t ++ r))[l.length + (t.length - 1)]? = some c := by
      rw [List.getElem?_append_right (by omega),
        show l.length + (t.length - 1) - l.length = t.length - 1 by omega,
        List.getElem?_append, if_pos (by omega : t.length - 1 < t.length),
        ← List.getLast?_eq_getElem?]
      exact hlast
    rw [← heq] at hidx
    rw [List.getElem?_append_right (by omega)] at hidx
    exact hcE (List.getElem?_mem hidx)
  refine (hasSubstr_true_iff _ _).mpr
    ⟨l, List.take (P.length - l.length - t.length) r, ?_⟩
  have hP : P = List.take P.length (l ++ (t ++ r)) := by
    rw [← heq, List.take_left]
  conv_lhs => rw [hP]
  rw [List.take_append_eq_append_take, List.take_of_length_le (by omega),
    List.take_append_eq_append_take, List.take_of_length_le (by omega)]

/-- Claim C8 (amended): for every keyword, the current `searchVideo`
builds one GET URL consisting of the search endpoint, `search_type=video`
and the URL-encoded keyword, with *no* ascending-order parameter (no
`order=` appears in it for any keyword); the ascending-order parameter
`order=a` appears only in the earlier revision's `searchVideo` URL, which
is otherwise identical. -/
theorem C8_search_url :
    ∀ kwd : String,
      searchVideoUrl kwd =
        "https://api.bilibili.com/x/web-interface/search/type?search_type=video&keyword="
          ++ encodeURIComponent kwd ∧
      hasSubstr (searchVideoUrl kwd).data "order=".data = false ∧
      searchVideoUrlEarlier kwd =
        "https://api.bilibili.com/x/web-interface/search/type?search_type=video&order=a&keyword="
          ++ encodeURIComponent kwd ∧
      hasSubstr (searchVideoUrlEarlier kwd).data "order=a".data = true := by
  intro kwd
  refine ⟨rfl, ?_, rfl, ?_⟩
  · cases hcase : hasSubstr (searchVideoUrl kwd).data "order=".data with
    | false => rfl
    | true =>
      exfalso
      rw [searchVideoUrl, String.data_append] at hcase
      have hP := hasSubstr_of_append_last _ _ _ '=' (by decide)
        (encode_no_eq kwd) hcase
      exact absurd hP (by decide)
  · rw [searchVideoUrlEarlier, String.data_append]
    apply hasSubstr_append_left
    decide

/-- Counterexample to claim C8 as stated: at a concrete keyword, the URL
built by the current `searchVideo` contains no ascending-order parameter
(while the earlier revision's URL does). -/
theorem C8_counterexample :
    containsStr (searchVideoUrl "晴天 周杰伦 MV/PV") "order=" = false ∧
    containsStr (searchVideoUrlEarlier "晴天 周杰伦 MV/PV") "order=a"
      = true := by
  decide

/-! ## Keyword construction (claim C9) -/

theorem stripSongNameBrackets_eq :
    ∀ (fuel : Nat) (cs : List Char),
      stripSongNameBracketsF fuel cs = stripPairsF songNamePairs fuel cs := by
  intro fuel
  induction fuel with
  | zero => intro cs; rfl
  | succ f ih =>
    intro cs
    cases cs with
    | nil => rfl
    | cons c cs =>
      by_cases h1 : c = '【'
      · subst h1
        show (match afterCloser '】' cs with
            | some rest => stripSongNameBracketsF f rest
            | none => '【' :: stripSongNameBracketsF f cs) =
          (match afterCloser '】' cs with
            | some rest => stripPairsF songNamePairs f rest
            | none => '【' :: stripPairsF songNamePairs f cs)
        cases afterCloser '】' cs with
        | none => rw [ih]
        | some rest => exact ih rest
      by_cases h2 : c = '['
      · subst h2
        show (match afterCloser ']' cs with
            | some rest => stripSongNameBracketsF f rest
            | none => '[' :: stripSongNameBracketsF f cs) =
          (match afterCloser ']' cs with
            | some rest => stripPairsF songNamePairs f rest
            | none => '[' :: stripPairsF songNamePairs f cs)
        cases afterCloser ']' cs with
        | none => rw [ih]
        | some rest => exact ih rest
      by_cases h3 : c = '{'
      · subst h3
        show (match afterCloser '}' cs with
            | some rest => stripSongNameBracketsF f rest
            | none => '{' :: stripSongNameBracketsF f cs) =
          (match afterCloser '}' cs with
            | some rest => stripPairsF songNamePairs f rest
            | none => '{' :: stripPairsF songNamePairs f cs)
        cases afterCloser '}' cs with
        | none => rw [ih]
        | some rest => exact ih rest
      by_cases h4 : c = '('
      · subst h4
        show (match afterCloser ')' cs with
            | some rest => stripSongNameBracketsF f rest
            | none => '(' :: stripSongNameBracketsF f cs) =
          (match afterCloser ')' cs with
            | some rest => stripPairsF songNamePairs f rest
            | none => '(' :: stripPairsF songNamePairs f cs)
        cases afterCloser ')' cs with
        | none => rw [ih]
        | some rest => exact ih rest
      by_cases h5 : c = '「'
      · subst h5
        show (match afterCloser '」' cs with
            | some rest => stripSongNameBracketsF f rest
            | none => '「' :: stripSongNameBracketsF f cs) =
          (match afterCloser '」' cs with
            | some rest => stripPairsF songNamePairs f rest
            | none => '「' :: stripPairsF songNamePairs f cs)
        cases afterCloser '」' cs with
        | none => rw [ih]
        | some rest => exact ih rest
      by_cases h6 : c = '『'
      · subst h6
        show (match afterCloser '』' cs with
            | some rest => stripSongNameBracketsF f rest
            | none => '『' :: stripSongNameBracketsF f cs) =
          (match afterCloser '』' cs with
            | some rest => stripPairsF songNamePairs f rest
            | none => '『' :: stripPairsF songNamePairs f cs)
        cases afterCloser '』' cs with
        | none => rw [ih]
        | some rest => exact ih rest
      · simp only [stripSongNameBracketsF, if_neg h1, if_neg h2, if_neg h3,
          if_neg h4, if_neg h5, if_neg h6, stripPairsF, songNamePairs,
          List.find?]
        have d1 : decide (('【' : Char) = c) = false :=
          decide_eq_false (fun e => h1 e.symm)
        have d2 : decide (('[' : Char) = c) = false :=
          decide_eq_false (fun e => h2 e.symm)
        have d3 : decide (('{' : Char) = c) = false :=
          decide_eq_false (fun e => h3 e.symm)
        have d4 : decide (('(' : Char) = c) = false :=
          decide_eq_false (fun e => h4 e.symm)
        have d5 : decide (('「' : Char) = c) = false :=
          decide_eq_false (fun e => h5 e.symm)
        have d6 : decide (('『' : Char) = c) = false :=
          decide_eq_false (fun e => h6 e.symm)
        simp only [d1, d2, d3, d4, d5, d6]
        rw [ih]
        rfl

/-- Claim C9 (amended): the search keyword substitutes the cleaned title
and the artist into the template's first `{name}` and `{artist}`
placeholders, falling back to the literal
`` `MV ${cleanedSongName} - ${artistName}` `` exactly when the
substituted template is empty; the title cleaning strips the bracket set
`【】 [] {} () 「」 『』` — the §4.1 step 1 set *plus* the curly-brace
pair — with contents, then collapses whitespace and trims. -/
theorem C9_keyword_construction :
    (∀ songName : String,
      cleanSongName songName = cleanSongNameSpec songName) ∧
    (∀ searchKwd songName artistName : String,
      buildKeyword searchKwd songName artistName =
        buildKeywordSpec searchKwd songName artistName) ∧
    (∀ songName artistName : String,
      buildKeyword "" songName artistName =
        "MV " ++ cleanSongName songName ++ " - " ++ artistName) ∧
    cleanSongName "晴天{Live}" = "晴天" := by
  have hclean : ∀ s : String, cleanSongName s = cleanSongNameSpec s := by
    intro s
    rw [cleanSongName, cleanSongNameSpec, stripPairs,
      stripSongNameBrackets_eq]
  refine ⟨hclean, ?_, ?_, by decide⟩
  · intro t s a
    rw [buildKeyword, buildKeywordSpec, hclean]
  · intro s a
    rfl

/-- Counterexample to claim C9 as stated: a title containing a
curly-brace annotation.  `cleanSongName` strips `{Live}` (its regex has a
sixth pair `\{.*?\}`), while the claim's "exactly the §4.1 step 1 bracket
set" would keep it, so the produced keywords differ. -/
theorem C9_counterexample :
    buildKeyword "{name} {artist} MV/PV" "晴天{Live}" "周杰伦"
      = "晴天 周杰伦 MV/PV" ∧
    buildKeywordClaim "{name} {artist} MV/PV" "晴天{Live}" "周杰伦"
      = "晴天{Live} 周杰伦 MV/PV" ∧
    buildKeyword "{name} {artist} MV/PV" "晴天{Live}" "周杰伦"
      ≠ buildKeywordClaim "{name} {artist} MV/PV" "晴天{Live}" "周杰伦" := by
  decide

end PWB
